import Mathlib

set_option maxHeartbeats 1000000
set_option maxRecDepth 8192

/-! Shallow embedding of the resilient extraction orchestrator core of the
`scrape` repository: the circuit breaker and recovery strategies
(`src/errors/recovery.js`), the error taxonomy and retry executor (the error
classes module), batch processing with its counting semaphore
(`src/orchestrator/orchestrator.js`), and the learning-storage pattern cache.
Definitions mirror the JavaScript source; timestamps and delays are naturals
(milliseconds), confidence scores are rationals. -/

namespace Scrape

/-- States of the circuit breaker (`this.state` in `CircuitBreaker`,
recovery.js). -/
inductive CBState where
  | CLOSED
  | OPEN
  | HALF_OPEN
deriving DecidableEq, Repr

/-- Configuration and mutable fields of `CircuitBreaker` (recovery.js,
constructor): `failureThreshold` (default 5), `resetTimeout` (default 60000
ms), `halfOpenRetries` (default 3), plus the state, the failure counter, the
time of the last failure (`null` before any failure) and the half-open
success counter. -/
structure CircuitBreaker where
  failureThreshold : Nat
  resetTimeout : Nat
  halfOpenRetries : Nat
  state : CBState
  failures : Nat
  lastFailureTime : Option Nat
  successCount : Nat
deriving DecidableEq, Repr

/-- Fresh breaker as built by the `CircuitBreaker` constructor with the given
options. -/
def CircuitBreaker.mkNew (failureThreshold resetTimeout halfOpenRetries : Nat) :
    CircuitBreaker :=
  { failureThreshold := failureThreshold, resetTimeout := resetTimeout,
    halfOpenRetries := halfOpenRetries, state := .CLOSED, failures := 0,
    lastFailureTime := none, successCount := 0 }

/-- `CircuitBreaker.onSuccess` (recovery.js): reset the failure counter to 0;
while HALF_OPEN additionally count the success and close the breaker once
`halfOpenRetries` successes have been seen. -/
def CircuitBreaker.onSuccess (cb : CircuitBreaker) : CircuitBreaker :=
  let cb1 := { cb with failures := 0 }
  if cb1.state = .HALF_OPEN then
    let cb2 := { cb1 with successCount := cb1.successCount + 1 }
    if cb2.successCount ≥ cb2.halfOpenRetries then { cb2 with state := .CLOSED }
    else cb2
  else cb1

/-- `CircuitBreaker.onFailure` (recovery.js): increment the failure counter,
stamp `lastFailureTime` with the current time, and open the breaker when the
counter has reached `failureThreshold`. -/
def CircuitBreaker.onFailure (cb : CircuitBreaker) (now : Nat) : CircuitBreaker :=
  let cb1 := { cb with failures := cb.failures + 1, lastFailureTime := some now }
  if cb1.failures ≥ cb1.failureThreshold then { cb1 with state := .OPEN }
  else cb1

/-- Outcome of one call through the breaker: rejected without running the
wrapped operation, or the operation ran and succeeded, or ran and failed. -/
inductive CBResult where
  | rejected
  | succeeded
  | failed
deriving DecidableEq, Repr

/-- Result of `CircuitBreaker.execute`: whether the wrapped operation was
invoked, the call outcome, and the breaker state afterwards. -/
structure ExecResult where
  invoked : Bool
  result : CBResult
  cb : CircuitBreaker
deriving DecidableEq, Repr

/-- One call through `CircuitBreaker.execute` at time `now` (recovery.js).
`fnOk` is the outcome the wrapped operation `fn` would produce if invoked.
When the state is OPEN and `now - lastFailureTime` has not exceeded
`resetTimeout`, the call is rejected without running `fn` (the source throws
`Circuit breaker is OPEN`, or returns the fallback result when a fallback is
supplied); otherwise an OPEN breaker first moves to HALF_OPEN with
`successCount = 0`, then `fn` runs and `onSuccess` / `onFailure` is applied.
A `null` `lastFailureTime` coerces to 0 in the source's subtraction. -/
def CircuitBreaker.execute (cb : CircuitBreaker) (now : Nat) (fnOk : Bool) :
    ExecResult :=
  if cb.state = .OPEN ∧ ¬ (now - (cb.lastFailureTime.getD 0) > cb.resetTimeout) then
    { invoked := false, result := .rejected, cb := cb }
  else
    let cb1 := if cb.state = .OPEN then { cb with state := .HALF_OPEN, successCount := 0 }
      else cb
    if fnOk then { invoked := true, result := .succeeded, cb := cb1.onSuccess }
    else { invoked := true, result := .failed, cb := cb1.onFailure now }

/-- The counting semaphore of orchestrator.js (the copy in
parallel-scraper.js is textually identical).  The source's queue holds the
pending `resolve` callbacks of suspended acquirers; each is modelled by the
waiting task's identifier. -/
structure Semaphore where
  maxConcurrent : Nat
  currentConcurrent : Nat
  queue : List Nat
deriving DecidableEq, Repr

/-- Fresh semaphore as built by `new Semaphore(maxConcurrent)`. -/
def Semaphore.mkNew (maxConcurrent : Nat) : Semaphore :=
  { maxConcurrent := maxConcurrent, currentConcurrent := 0, queue := [] }

/-- `Semaphore.acquire` called by task `w`: below the limit the count is
incremented and the acquire resolves at once (`true`); otherwise the task's
resolver is pushed onto the queue and the acquire suspends (`false`). -/
def Semaphore.acquire (s : Semaphore) (w : Nat) : Semaphore × Bool :=
  if s.currentConcurrent < s.maxConcurrent then
    ({ s with currentConcurrent := s.currentConcurrent + 1 }, true)
  else
    ({ s with queue := s.queue ++ [w] }, false)

/-- `Semaphore.release`: decrement the count; then if any task is queued,
shift it off, re-increment the count and resume it (the resumed task, if any,
is returned). -/
def Semaphore.release (s : Semaphore) : Semaphore × Option Nat :=
  let s1 := { s with currentConcurrent := s.currentConcurrent - 1 }
  match s1.queue with
  | [] => (s1, none)
  | next :: rest =>
    ({ s1 with currentConcurrent := s1.currentConcurrent + 1, queue := rest }, some next)

/-- A semaphore together with the set of tasks currently holding a slot.  A
task holds a slot from the moment its `acquire` resolves — immediately, or by
being resumed inside another task's `release` — until its own `release`. -/
structure SemSys where
  sem : Semaphore
  holders : List Nat
deriving DecidableEq, Repr

/-- Events during `processBatch`: some task `w` calls `acquire`, or a
slot-holding task `w` calls `release` (in the source, in its `finally`). -/
inductive SemEvent where
  | acquire (w : Nat)
  | release (w : Nat)
deriving DecidableEq, Repr

/-- Effect of one event on the semaphore and the holder set. -/
def SemSys.step (s : SemSys) : SemEvent → SemSys
  | .acquire w =>
    { sem := (s.sem.acquire w).1,
      holders := if (s.sem.acquire w).2 then w :: s.holders else s.holders }
  | .release w =>
    { sem := s.sem.release.1,
      holders :=
        match s.sem.release.2 with
        | none => s.holders.erase w
        | some q => q :: s.holders.erase w }

/-- The states reachable from a fresh semaphore of capacity `k` under any
interleaving of acquires and releases in which only a current slot holder
releases (in the source, `release` runs in the `finally` block of a task
whose `acquire` has resolved). -/
inductive SemReachable (k : Nat) : SemSys → Prop where
  | init : SemReachable k { sem := Semaphore.mkNew k, holders := [] }
  | acquire (w : Nat) (s : SemSys) :
      SemReachable k s → SemReachable k (s.step (.acquire w))
  | release (w : Nat) (s : SemSys) :
      SemReachable k s → w ∈ s.holders → SemReachable k (s.step (.release w))

/-- Inductive invariant of the semaphore system: the configured limit is `k`,
the holder count agrees with `currentConcurrent`, and both are at most `k`. -/
def SemInv (k : Nat) (s : SemSys) : Prop :=
  s.sem.maxConcurrent = k ∧ s.holders.length = s.sem.currentConcurrent ∧
    s.sem.currentConcurrent ≤ k

/-- Terminal outcome of `processTask` for one task: the extraction result, or
the message of the error thrown once retries are exhausted. -/
inductive TaskOutcome where
  | success (data : String)
  | failure (msg : String)
deriving DecidableEq, Repr

/-- One slot of the array returned by `processBatch`: either
`{ success: true, data: result }` or `{ success: false, error: error.message }`. -/
structure BatchSlot where
  success : Bool
  data : Option String
  error : Option String
deriving DecidableEq, Repr

/-- How `processBatch` fills `results[index]` from task `index`'s outcome. -/
def slotOf : TaskOutcome → BatchSlot
  | .success d => { success := true, data := some d, error := none }
  | .failure m => { success := false, data := none, error := some m }

/-- `TaskOrchestrator.processBatch` (orchestrator.js): every task writes its
own slot `results[index]` whether it succeeds or throws, so the returned
array pairs index `i` with task `i`'s terminal outcome. -/
def processBatch (outcomes : List TaskOutcome) : List BatchSlot :=
  outcomes.map slotOf

/-- `processBatch` under an explicit completion schedule: the result slots
start unset, the task at input index `i` writes `results[i]` when it
completes, and `order` lists the input indices in completion order. -/
def processBatchSched (outcomes : List TaskOutcome) (order : List Nat) :
    List (Option BatchSlot) :=
  order.foldl
    (fun results i => results.set i (some (slotOf (outcomes.getD i (.failure "")))))
    (List.replicate outcomes.length none)

/-- The error taxonomy of the error-classes module, restricted to the data
`ErrorHandler.isRecoverable` inspects: a `NavigationError` and whether its
context has `timeout`, an `ExtractionError` and whether its context has
`temporary`, a `DetectionError` with its `isRecoverable` flag, a
`RateLimitError` with its optional `retryAfter` hint (in seconds), and any
other error. -/
inductive JsError where
  | navigationError (msg : String) (ctxTimeout : Bool)
  | extractionError (msg : String) (ctxTemporary : Bool)
  | detectionError (msg : String) (isRecoverable : Bool)
  | rateLimitError (msg : String) (retryAfter : Option Nat)
  | otherError (msg : String)
deriving DecidableEq, Repr

namespace ErrorHandler

/-- `ErrorHandler.isRecoverable`: navigation timeouts, rate limits, detection
errors flagged recoverable and extraction errors marked temporary can be
retried; every other error cannot. -/
def isRecoverable : JsError → Bool
  | .navigationError _ ctxTimeout => ctxTimeout
  | .rateLimitError _ _ => true
  | .detectionError _ flag => flag
  | .extractionError _ ctxTemporary => ctxTemporary
  | .otherError _ => false

/-- Observable behaviour of one `ErrorHandler.withRetry` run: the final
result (`Except.error none` models `throw lastError` with `lastError` still
`undefined`, reachable only when `maxRetries = 0`), the attempt numbers at
which `fn` was invoked in order, and the backoff waits performed between
consecutive attempts, in milliseconds. -/
structure RetryTrace (α : Type) where
  result : Except (Option JsError) α
  attemptsMade : List Nat
  delays : List Nat
deriving Repr

/-- The retry loop of `ErrorHandler.withRetry`, entered with loop counter
`attempt` and the last error seen so far.  `budget` is the number of loop
iterations still permitted, `maxRetries + 1 - attempt`, so the loop guard
`attempt <= maxRetries` reads `budget > 0` and the exhaustion test
`attempt === maxRetries` reads `budget = 1`.  The loop returns on success,
rethrows when the error is not recoverable or when attempts are exhausted,
and otherwise waits `backoff * 2 ^ (attempt - 1)` ms and re-enters with
`attempt + 1`. -/
def withRetryGo {α : Type} (fn : Nat → Except JsError α) (backoff : Nat) :
    Nat → Nat → Option JsError → RetryTrace α
  | 0, _, lastError =>
    { result := .error lastError, attemptsMade := [], delays := [] }
  | budget + 1, attempt, _ =>
    match fn attempt with
    | .ok v => { result := .ok v, attemptsMade := [attempt], delays := [] }
    | .error e =>
      if isRecoverable e = false ∨ budget = 0 then
        { result := .error (some e), attemptsMade := [attempt], delays := [] }
      else
        let rest := withRetryGo fn backoff budget (attempt + 1) (some e)
        { result := rest.result, attemptsMade := attempt :: rest.attemptsMade,
          delays := backoff * 2 ^ (attempt - 1) :: rest.delays }

/-- `ErrorHandler.withRetry(fn, maxRetries, backoff)` (defaults 3 and 1000
ms): run `fn(attempt)` for `attempt = 1, 2, ...`, at most `maxRetries` times,
retrying only recoverable errors, waiting `backoff * 2 ^ (attempt - 1)` ms
between consecutive attempts, and finishing with the last error on a
non-recoverable error or on exhaustion.  The loop starts with its full
iteration budget `maxRetries` at `attempt = 1` and `lastError` undefined. -/
def withRetry {α : Type} (fn : Nat → Except JsError α) (maxRetries backoff : Nat) :
    RetryTrace α :=
  withRetryGo fn backoff maxRetries 1 none

end ErrorHandler

/-- `ErrorRecovery.waitForRateLimitReset` (recovery.js): wait
`error.retryAfter || 60` seconds — a missing (or zero, hence falsy) hint
falls back to 60 — that is `retryAfter * 1000` milliseconds, then report the
`rate-limit-wait` strategy as successful.  Returns the wait in ms. -/
def waitForRateLimitReset (e : JsError) : Nat :=
  let retryAfter : Nat :=
    match e with
    | .rateLimitError _ (some ra) => if ra = 0 then 60 else ra
    | _ => 60
  retryAfter * 1000

/-- A concrete operation that fails on every attempt with a `RateLimitError`
carrying the retry-after hint 30 (seconds) — recoverable per
`ErrorHandler.isRecoverable`. -/
def alwaysRateLimited : Nat → Except JsError Unit :=
  fun _ => .error (.rateLimitError "rate limited" (some 30))

/-- Milliseconds per day, the divisor `1000 * 60 * 60 * 24` of
`calculateConfidence`. -/
def msPerDay : Nat := 1000 * 60 * 60 * 24

/-- `this.cacheMaxAge = 6 * 30 * 24 * 60 * 60 * 1000` — six months in
milliseconds (`LearningStorage` constructor). -/
def cacheMaxAge : Nat := 6 * 30 * 24 * 60 * 60 * 1000

/-- Per-domain learning record (`data.domains[hostname]`), with the fields
written by `recordSuccess`.  ISO timestamps are modelled as ms-since-epoch
naturals and selector payloads as strings; fields a fresh `{}` record leaves
undefined are `none` or `""`. -/
structure DomainData where
  lastSuccess : Option Nat
  platform : String
  contentType : String
  strategy : String
  workingSelectors : List (String × String)
  successfulExtractors : Option (List String)
  optimalTiming : Option (Nat × Nat)
deriving DecidableEq, Repr

/-- A fresh `data.domains[hostname] = {}` record, before any field is set. -/
def DomainData.empty : DomainData :=
  { lastSuccess := none, platform := "", contentType := "", strategy := "",
    workingSelectors := [], successfulExtractors := none, optimalTiming := none }

/-- The learning structure `{ domains, version }`; `domains` is an
association list from hostname to that domain's record. -/
structure LearningData where
  domains : List (String × DomainData)
  version : String
deriving DecidableEq, Repr

/-- The empty structure `{ domains: {}, version: "1.0.0" }` returned when the
learning file is missing or invalid. -/
def emptyLearning : LearningData := { domains := [], version := "1.0.0" }

/-- The durable learning file: `some d` when `~/.scrape/learning.json` parses
to `d`, and `none` when the file is missing, unreadable, or not valid JSON. -/
structure StorageState where
  file : Option LearningData
deriving DecidableEq, Repr

/-- JavaScript object-key assignment on an association list: overwrite the
binding in place when the key exists, append it otherwise. -/
def setAssoc (xs : List (String × String)) (k v : String) : List (String × String) :=
  if (xs.lookup k).isSome then xs.map (fun p => if p.1 = k then (k, v) else p)
  else xs ++ [(k, v)]

/-- JavaScript object-key assignment for the `domains` table. -/
def setDomain (ds : List (String × DomainData)) (h : String) (dd : DomainData) :
    List (String × DomainData) :=
  if (ds.lookup h).isSome then ds.map (fun p => if p.1 = h then (h, dd) else p)
  else ds ++ [(h, dd)]

/-- JavaScript `x || dflt` on an optional number: `0` is falsy. -/
def orElseNum (v : Option Nat) (dflt : Nat) : Nat :=
  match v with
  | some x => if x = 0 then dflt else x
  | none => dflt

/-- JavaScript `x || dflt` on an optional string: `""` is falsy. -/
def orElseStr (v : Option String) (dflt : String) : String :=
  match v with
  | some x => if x = "" then dflt else x
  | none => dflt

/-- A domain entry is expired when it records a `lastSuccess` older than
`cacheMaxAge` (entries without `lastSuccess` are kept). -/
def isExpired (now : Nat) (p : String × DomainData) : Bool :=
  match p.2.lastSuccess with
  | some t => now - t > cacheMaxAge
  | none => false

/-- `cleanupOldEntries`: drop every expired domain entry; the second
component is the source's `hasChanges` flag, true iff something was dropped
(in which case the source persists the cleaned data). -/
def cleanupOldEntries (d : LearningData) (now : Nat) : LearningData × Bool :=
  ({ d with domains := d.domains.filter (fun p => ! isExpired now p) },
    d.domains.any (isExpired now))

/-- `saveLearningData`: serialize `d` into the learning file.  `writeOk` says
whether the underlying `fs.writeFile` succeeds; on failure the write throws
and the file keeps its previous content. -/
def saveLearningData (s : StorageState) (d : LearningData) (writeOk : Bool) :
    Except String StorageState :=
  if writeOk then .ok { file := some d } else .error "write failed"

/-- `loadLearningData`: read and parse the learning file, then run
`cleanupOldEntries` (persisting when it removed something); any error in this
block — missing or invalid file, or a failing persist inside the cleanup —
is caught and yields the empty structure.  Returns the data handed to the
caller together with the file state afterwards. -/
def loadLearningData (s : StorageState) (now : Nat) (writeOk : Bool) :
    LearningData × StorageState :=
  match s.file with
  | none => (emptyLearning, s)
  | some d =>
    let c := cleanupOldEntries d now
    if c.2 then
      match saveLearningData s c.1 writeOk with
      | .ok s1 => (c.1, s1)
      | .error _ => (emptyLearning, s)
    else (c.1, s)

/-- The `extractionData` argument of `recordSuccess`, restricted to the
fields it reads: `platform`, `selectors`, `extractorTypes` and
`timing { delay, timeout }`; absent fields are `none`. -/
structure ExtractionData where
  platform : Option String
  selectors : Option String
  extractorTypes : Option (List String)
  timing : Option (Option Nat × Option Nat)
deriving DecidableEq, Repr

/-- The pure update `recordSuccess` performs on the loaded data: upsert the
domain record, stamping `lastSuccess = now` and overwriting `platform`
(`extractionData.platform || 'unknown'`), `contentType` and `strategy`; store
`workingSelectors[contentType]` when selectors are given, the successful
extractor list when given, and `optimalTiming` (with `|| 3000` / `|| 30000`
defaults) when timing is given. -/
def recordSuccessData (d : LearningData) (hostname contentType : String)
    (ed : ExtractionData) (strategy : String) (now : Nat) : LearningData :=
  let dd := (d.domains.lookup hostname).getD DomainData.empty
  let dd := { dd with
    lastSuccess := some now,
    platform := orElseStr ed.platform "unknown",
    contentType := contentType,
    strategy := strategy }
  let dd := match ed.selectors with
    | some sel => { dd with workingSelectors := setAssoc dd.workingSelectors contentType sel }
    | none => dd
  let dd := match ed.extractorTypes with
    | some ets => { dd with successfulExtractors := some ets }
    | none => dd
  let dd := match ed.timing with
    | some t => { dd with optimalTiming := some (orElseNum t.1 3000, orElseNum t.2 30000) }
    | none => dd
  { d with domains := setDomain d.domains hostname dd }

/-- `LearningStorage.recordSuccess`: load, apply `recordSuccessData`, persist.
The whole body sits in a `try/catch` that logs and swallows any error, so a
failing persist leaves the file as it was and the call still returns
normally. -/
def recordSuccess (s : StorageState) (hostname contentType : String)
    (ed : ExtractionData) (strategy : String) (now : Nat) (writeOk : Bool) :
    StorageState :=
  let l := loadLearningData s now writeOk
  let d1 := recordSuccessData l.1 hostname contentType ed strategy now
  match saveLearningData l.2 d1 writeOk with
  | .ok s1 => s1
  | .error _ => l.2

/-- `LearningStorage.bustCache(hostname, reason)`: load, and when the domain
has an entry, delete the *whole* `data.domains[hostname]` object and persist.
The body is wrapped in a `try/catch` that logs and swallows errors.  The
`reason` only reaches the log line. -/
def bustCache (s : StorageState) (hostname : String) (reason : String)
    (now : Nat) (writeOk : Bool) : StorageState :=
  let l := loadLearningData s now writeOk
  if (l.1.domains.lookup hostname).isSome then
    let d1 := { l.1 with domains := l.1.domains.filter (fun p => p.1 != hostname) }
    match saveLearningData l.2 d1 writeOk with
    | .ok s1 => s1
    | .error _ => l.2
  else l.2

/-- `LearningStorage.recordFailure(hostname, contentType, reason)`: bust the
cache for the hostname; the `contentType` argument is accepted but not used
to narrow the deletion. -/
def recordFailure (s : StorageState) (hostname contentType reason : String)
    (now : Nat) (writeOk : Bool) : StorageState :=
  bustCache s hostname ("Extraction failed: " ++ reason) now writeOk

/-- `calculateConfidence`: 0 without a recorded success, otherwise a step
function of the fractional days since the last success,
`(now - lastSuccess) / msPerDay`: 1.0 within 7 days, 0.8 within 30, 0.6
within 90, and 0.4 beyond. -/
def calculateConfidence (now : Nat) (dd : DomainData) : ℚ :=
  match dd.lastSuccess with
  | none => 0
  | some t =>
    let daysSinceSuccess : ℚ := ((now - t : Nat) : ℚ) / (msPerDay : ℚ)
    if daysSinceSuccess ≤ 7 then 1
    else if daysSinceSuccess ≤ 30 then 8 / 10
    else if daysSinceSuccess ≤ 90 then 6 / 10
    else 4 / 10

/-- The record `getLearnedPatterns` returns on a hit. -/
structure LearnedPattern where
  selectors : Option String
  platform : String
  strategy : String
  extractors : Option (List String)
  timing : Option (Nat × Nat)
  lastSuccess : Option Nat
  confidence : ℚ
deriving DecidableEq, Repr

/-- `LearningStorage.getLearnedPatterns(hostname, contentType)`: load, look
the hostname up; absent (including dropped by the load's cleanup) yields
`null`; an entry staler than `cacheMaxAge` is busted and yields `null`;
otherwise the learned record is returned with its derived confidence.  Any
error is caught and yields `null`. -/
def getLearnedPatterns (s : StorageState) (hostname contentType : String)
    (now : Nat) (writeOk : Bool) : Option LearnedPattern × StorageState :=
  let l := loadLearningData s now writeOk
  match l.1.domains.lookup hostname with
  | none => (none, l.2)
  | some dd =>
    let stale : Bool := match dd.lastSuccess with
      | some t => decide (now - t > cacheMaxAge)
      | none => false
    if stale then (none, bustCache l.2 hostname "Cache expired" now writeOk)
    else
      (some { selectors := dd.workingSelectors.lookup contentType,
              platform := dd.platform, strategy := dd.strategy,
              extractors := dd.successfulExtractors, timing := dd.optimalTiming,
              lastSuccess := dd.lastSuccess,
              confidence := calculateConfidence now dd }, l.2)

/-- A concrete learned record for the domain `example.com` holding working
selectors for two content categories, last successful at time 0. -/
def ceDomainData : DomainData :=
  { lastSuccess := some 0, platform := "generic", contentType := "articles",
    strategy := "cached-selectors",
    workingSelectors := [("articles", "h1"), ("videos", "video.main")],
    successfulExtractors := none, optimalTiming := none }

/-- A concrete storage state whose learning file holds exactly the
`example.com` record. -/
def ceStorage : StorageState :=
  { file := some { domains := [("example.com", ceDomainData)], version := "1.0.0" } }

/-! Theorems.  Shared helper lemmas come first, then one theorem per claim
(with a closed witness or counterexample where required). -/

/-- Writing each index `i` of `order` with the fixed value `g i` leaves the
array length unchanged. -/
theorem foldl_set_length {α : Type} (g : Nat → α) (order : List Nat) (arr : List α) :
    (order.foldl (fun a i => a.set i (g i)) arr).length = arr.length := by
  induction order generalizing arr with
  | nil => rfl
  | cons i rest ih => simp [List.foldl_cons, ih, List.length_set]

/-- After writing each index `i` of `order` with the fixed value `g i`, slot
`j` holds `g j` when `j` was written and its initial value otherwise —
independently of the order and multiplicity of the writes. -/
theorem foldl_set_getElem {α : Type} (g : Nat → α) (order : List Nat) (arr : List α)
    (j : Nat) (hj : j < arr.length) :
    (order.foldl (fun a i => a.set i (g i)) arr)[j]? =
      if j ∈ order then some (g j) else arr[j]? := by
  induction order generalizing arr with
  | nil => simp
  | cons i rest ih =>
    simp only [List.foldl_cons]
    rw [ih (arr.set i (g i)) (by simpa using hj)]
    by_cases hjr : j ∈ rest
    · simp [hjr]
    · by_cases hij : i = j
      · subst hij
        simp [hjr, List.getElem?_set_eq_of_lt _ hj]
      · have hji : ¬ j = i := fun hcon => hij hcon.symm
        simp [hjr, List.getElem?_set_ne hij, List.mem_cons, hji]

/-- C1: for a batch of `N` requests, `processBatch` returns exactly one
outcome per request, stored at the request's original input index no matter
in which order the tasks complete; a terminally failing request contributes a
`success := false` slot carrying its error message (non-empty whenever the
message is), and all other slots are still the respective task's own outcome,
with the batch returning normally. -/
theorem processBatch_slots_by_input_index (outcomes : List Scrape.TaskOutcome)
    (order : List Nat) (hperm : order.Perm (List.range outcomes.length)) :
    Scrape.processBatchSched outcomes order = (Scrape.processBatch outcomes).map some
    ∧ (Scrape.processBatch outcomes).length = outcomes.length
    ∧ (∀ (i : Nat) (o : Scrape.TaskOutcome), outcomes[i]? = some o →
        (Scrape.processBatch outcomes)[i]? = some (Scrape.slotOf o))
    ∧ (∀ (i : Nat) (msg : String), outcomes[i]? = some (.failure msg) →
        (Scrape.processBatch outcomes)[i]? =
          some { success := false, data := none, error := some msg }) := by
  have hlen : (Scrape.processBatch outcomes).length = outcomes.length := by
    simp [Scrape.processBatch]
  refine ⟨?_, hlen, ?_, ?_⟩
  · apply List.ext_getElem?_iff.mpr
    intro j
    by_cases hj : j < outcomes.length
    · rw [Scrape.processBatchSched,
        foldl_set_getElem _ order (List.replicate outcomes.length none) j
          (by simpa using hj)]
      have hjmem : j ∈ order := hperm.mem_iff.mpr (List.mem_range.mpr hj)
      simp [hjmem, Scrape.processBatch, List.getElem?_map,
        List.getElem?_eq_getElem hj, List.getD_eq_getElem _ _ hj]
    · have h1 : (Scrape.processBatchSched outcomes order).length = outcomes.length := by
        rw [Scrape.processBatchSched, foldl_set_length]
        simp
      have h2 : ((Scrape.processBatch outcomes).map some).length = outcomes.length := by
        simp [hlen]
      rw [List.getElem?_eq_none (by omega), List.getElem?_eq_none (by omega)]
  · intro i o hio
    have hi : i < outcomes.length := by
      by_contra hcon
      rw [List.getElem?_eq_none (by omega)] at hio
      exact Option.noConfusion hio
    rw [List.getElem?_eq_getElem hi] at hio
    simp [Scrape.processBatch, List.getElem?_map, List.getElem?_eq_getElem hi,
      Option.some_inj.mp hio]
  · intro i msg hio
    have hi : i < outcomes.length := by
      by_contra hcon
      rw [List.getElem?_eq_none (by omega)] at hio
      exact Option.noConfusion hio
    rw [List.getElem?_eq_getElem hi] at hio
    simp [Scrape.processBatch, List.getElem?_map, List.getElem?_eq_getElem hi,
      Option.some_inj.mp hio, Scrape.slotOf]

/-- Closed instance of the batch-ordering theorem: a batch of five tasks in
which task 2 (0-based) always fails, completing in the scrambled order
4, 2, 0, 3, 1, still fills every slot by input index with one failed slot. -/
theorem processBatch_slots_by_input_index_witness :
    Scrape.processBatchSched
        [.success "a", .success "b", .failure "boom", .success "d", .success "e"]
        [4, 2, 0, 3, 1] =
      (Scrape.processBatch
        [.success "a", .success "b", .failure "boom", .success "d", .success "e"]).map some
    ∧ (Scrape.processBatch
        [.success "a", .success "b", .failure "boom", .success "d", .success "e"])[2]? =
      some { success := false, data := none, error := some "boom" } := by
  refine ⟨?_, ?_⟩
  · exact (processBatch_slots_by_input_index
      [.success "a", .success "b", .failure "boom", .success "d", .success "e"]
      [4, 2, 0, 3, 1] (by decide)).1
  · exact (processBatch_slots_by_input_index
      [.success "a", .success "b", .failure "boom", .success "d", .success "e"]
      [4, 2, 0, 3, 1] (by decide)).2.2.2 2 "boom" (by decide)

/-- Unfolding lemma: an acquire below the limit is granted at once. -/
theorem acquire_eq_of_lt (s : Scrape.Semaphore) (w : Nat)
    (h : s.currentConcurrent < s.maxConcurrent) :
    s.acquire w = ({ s with currentConcurrent := s.currentConcurrent + 1 }, true) := by
  simp [Scrape.Semaphore.acquire, h]

/-- Unfolding lemma: an acquire at capacity queues the waiter. -/
theorem acquire_eq_of_ge (s : Scrape.Semaphore) (w : Nat)
    (h : ¬ s.currentConcurrent < s.maxConcurrent) :
    s.acquire w = ({ s with queue := s.queue ++ [w] }, false) := by
  simp [Scrape.Semaphore.acquire, h]

/-- Unfolding lemma: a release with an empty queue just decrements. -/
theorem release_eq_of_nil (s : Scrape.Semaphore) (h : s.queue = []) :
    s.release = ({ s with currentConcurrent := s.currentConcurrent - 1 }, none) := by
  simp [Scrape.Semaphore.release, h]

/-- Unfolding lemma: a release with a queued waiter hands the slot over. -/
theorem release_eq_of_cons (s : Scrape.Semaphore) (next : Nat) (rest : List Nat)
    (h : s.queue = next :: rest) :
    s.release =
      ({ s with currentConcurrent := s.currentConcurrent - 1 + 1, queue := rest },
        some next) := by
  simp [Scrape.Semaphore.release, h]

/-- Inductive-invariant lemma for the semaphore system: along every
well-formed interleaving the holder list length always mirrors the
`currentConcurrent` counter and stays within the configured maximum. -/
theorem semInv_of_reachable (k : Nat) (s : Scrape.SemSys)
    (h : Scrape.SemReachable k s) : Scrape.SemInv k s := by
  induction h with
  | init => exact ⟨rfl, rfl, Nat.zero_le k⟩
  | acquire w s hs ih =>
    obtain ⟨hmax, hlen, hle⟩ := ih
    by_cases hlt : s.sem.currentConcurrent < s.sem.maxConcurrent
    · refine ⟨?_, ?_, ?_⟩ <;>
        simp only [Scrape.SemSys.step, acquire_eq_of_lt s.sem w hlt]
      · exact hmax
      · simp [hlen]
      · omega
    · refine ⟨?_, ?_, ?_⟩ <;>
        simp only [Scrape.SemSys.step, acquire_eq_of_ge s.sem w hlt]
      · exact hmax
      · simp [hlen]
      · exact hle
  | release w s hs hw ih =>
    obtain ⟨hmax, hlen, hle⟩ := ih
    have hpos : 1 ≤ s.sem.currentConcurrent := by
      rw [← hlen]
      exact List.length_pos_of_mem hw
    have herase : (s.holders.erase w).length = s.holders.length - 1 :=
      List.length_erase_of_mem hw
    cases hq : s.sem.queue with
    | nil =>
      refine ⟨?_, ?_, ?_⟩ <;>
        simp only [Scrape.SemSys.step, release_eq_of_nil s.sem hq]
      · exact hmax
      · simp [herase, hlen]
      · omega
    | cons next rest =>
      refine ⟨?_, ?_, ?_⟩ <;>
        simp only [Scrape.SemSys.step, release_eq_of_cons s.sem next rest hq]
      · exact hmax
      · rw [List.length_cons, herase, hlen]
      · omega

/-- C2: for every concurrency limit `k` and every well-formed interleaving of
acquires and releases, the number of tasks simultaneously holding a semaphore
slot — and the semaphore's own `currentConcurrent` counter — never exceeds
`k`. -/
theorem semaphore_holders_le_limit (k : Nat) (s : Scrape.SemSys)
    (h : Scrape.SemReachable k s) :
    s.holders.length ≤ k ∧ s.sem.currentConcurrent ≤ k := by
  obtain ⟨hmax, hlen, hle⟩ := semInv_of_reachable k s h
  exact ⟨hlen ▸ hle, hle⟩

/-- Closed instance of the semaphore bound: with limit 2, after three
acquires (the third suspending) and one release (which resumes the waiter),
at most 2 tasks hold a slot. -/
theorem semaphore_holders_le_limit_witness :
    ((((({ sem := Scrape.Semaphore.mkNew 2, holders := [] } :
        Scrape.SemSys).step (.acquire 1)).step (.acquire 2)).step
        (.acquire 3)).step (.release 1)).holders.length ≤ 2 := by
  have h1 : Scrape.SemReachable 2 { sem := Scrape.Semaphore.mkNew 2, holders := [] } :=
    Scrape.SemReachable.init
  have h2 := Scrape.SemReachable.acquire 1 _ h1
  have h3 := Scrape.SemReachable.acquire 2 _ h2
  have h4 := Scrape.SemReachable.acquire 3 _ h3
  have h5 := Scrape.SemReachable.release 1 _ h4 (by decide)
  exact (semaphore_holders_le_limit 2 _ h5).1

/-- Helper: an OPEN breaker whose `lastFailureTime` is within `resetTimeout`
of the call time rejects the call leaving everything untouched. -/
theorem execute_rejected_of_open (cb : Scrape.CircuitBreaker) (now t : Nat) (fnOk : Bool)
    (hst : cb.state = .OPEN) (hlt : cb.lastFailureTime = some t)
    (helapsed : now - t ≤ cb.resetTimeout) :
    cb.execute now fnOk = { invoked := false, result := .rejected, cb := cb } := by
  rw [Scrape.CircuitBreaker.execute, if_pos]
  exact ⟨hst, by rw [hlt]; simpa using helapsed⟩

/-- Helper: when the wrapped operation runs and fails, the failure counter is
bumped, the failure time stamped, and the breaker opens exactly when the new
counter reaches the threshold. -/
theorem execute_failure_updates (cb : Scrape.CircuitBreaker) (now : Nat)
    (hinv : (cb.execute now false).invoked = true) :
    (cb.execute now false).cb.failures = cb.failures + 1
    ∧ (cb.execute now false).cb.lastFailureTime = some now
    ∧ (cb.execute now false).cb.resetTimeout = cb.resetTimeout
    ∧ (cb.execute now false).cb.state =
        (if cb.failures + 1 ≥ cb.failureThreshold then .OPEN
         else if cb.state = .OPEN then .HALF_OPEN else cb.state) := by
  rw [Scrape.CircuitBreaker.execute] at hinv ⊢
  by_cases hrej : cb.state = Scrape.CBState.OPEN ∧
      ¬ (now - (cb.lastFailureTime.getD 0) > cb.resetTimeout)
  · rw [if_pos hrej] at hinv
    exact absurd hinv (by simp)
  · rw [if_neg hrej] at hinv ⊢
    by_cases hop : cb.state = Scrape.CBState.OPEN
    · simp only [hop, if_true, if_pos]
      rw [Scrape.CircuitBreaker.onFailure]
      by_cases hth : cb.failures + 1 ≥ cb.failureThreshold
      · simp [hth]
      · simp [hth]
    · simp only [hop, if_false, if_neg]
      rw [Scrape.CircuitBreaker.onFailure]
      by_cases hth : cb.failures + 1 ≥ cb.failureThreshold
      · simp [hth]
      · simp [hth]

/-- C3: an OPEN breaker within `resetTimeout` of its opening rejects every
call without invoking the wrapped operation and without changing state; and a
failure that brings the consecutive-failure count up to `failureThreshold`
opens the breaker with `lastFailureTime = now`, so the very next call, made
before `resetTimeout` elapses, is rejected without attempting extraction. -/
theorem circuitBreaker_open_rejects (cb : Scrape.CircuitBreaker)
    (now now' t : Nat) (fnOk fnOk' : Bool) :
    (cb.state = .OPEN → cb.lastFailureTime = some t → now - t < cb.resetTimeout →
      cb.execute now fnOk = { invoked := false, result := .rejected, cb := cb })
    ∧ ((cb.execute now false).invoked = true →
        cb.failures + 1 ≥ cb.failureThreshold →
        (cb.execute now false).cb.state = .OPEN
        ∧ (cb.execute now false).cb.lastFailureTime = some now
        ∧ (now' - now < cb.resetTimeout →
            (cb.execute now false).cb.execute now' fnOk' =
              { invoked := false, result := .rejected, cb := (cb.execute now false).cb })) := by
  constructor
  · intro hst hlt helapsed
    exact execute_rejected_of_open cb now t fnOk hst hlt (Nat.le_of_lt helapsed)
  · intro hinv hth
    obtain ⟨hfail, htime, hreset, hstate⟩ := execute_failure_updates cb now hinv
    have hopen : (cb.execute now false).cb.state = .OPEN := by
      rw [hstate, if_pos hth]
    refine ⟨hopen, htime, ?_⟩
    intro hlt'
    exact execute_rejected_of_open (cb.execute now false).cb now' now fnOk' hopen htime
      (by rw [hreset]; exact Nat.le_of_lt hlt')

/-- Closed instance of the breaker-rejection theorem: with threshold 1 and
reset timeout 1000, a failure at time 0 opens the breaker and a call at time
5 is rejected without invoking the operation. -/
theorem circuitBreaker_open_rejects_witness :
    ((Scrape.CircuitBreaker.mkNew 1 1000 3).execute 0 false).cb.state = .OPEN
    ∧ (((Scrape.CircuitBreaker.mkNew 1 1000 3).execute 0 false).cb.execute 5 true =
        { invoked := false, result := .rejected,
          cb := ((Scrape.CircuitBreaker.mkNew 1 1000 3).execute 0 false).cb }) := by
  have h := (circuitBreaker_open_rejects (Scrape.CircuitBreaker.mkNew 1 1000 3)
    0 5 0 true true).2 (by decide) (by decide)
  exact ⟨h.1, h.2.2 (by decide)⟩

/-- C4 counterexample: breaker with `failureThreshold = 2`,
`resetTimeout = 10`, `halfOpenRetries = 3`.  Two failures (t = 0, 1) open it;
at t = 20 a successful probe moves it to HALF_OPEN and resets the failure
counter; the failing call at t = 21 is invoked but leaves the breaker in
HALF_OPEN — not OPEN — refuting that any failure while HALF_OPEN immediately
transitions back to OPEN regardless of intervening successes. -/
theorem circuitBreaker_half_open_failure_ce :
    (((((Scrape.CircuitBreaker.mkNew 2 10 3).execute 0 false).cb.execute 1
        false).cb.execute 20 true).cb.state = .HALF_OPEN)
    ∧ ((((((Scrape.CircuitBreaker.mkNew 2 10 3).execute 0 false).cb.execute 1
        false).cb.execute 20 true).cb.execute 21 false).invoked = true)
    ∧ ((((((Scrape.CircuitBreaker.mkNew 2 10 3).execute 0 false).cb.execute 1
        false).cb.execute 20 true).cb.execute 21 false).result = .failed)
    ∧ ((((((Scrape.CircuitBreaker.mkNew 2 10 3).execute 0 false).cb.execute 1
        false).cb.execute 20 true).cb.execute 21 false).cb.state = .HALF_OPEN)
    ∧ ((((((Scrape.CircuitBreaker.mkNew 2 10 3).execute 0 false).cb.execute 1
        false).cb.execute 20 true).cb.execute 21 false).cb.state ≠ .OPEN) := by
  refine ⟨by decide, by decide, by decide, by decide, by decide⟩

/-- C4 amended: a failure while HALF_OPEN always stamps a fresh
`lastFailureTime`, but it returns the breaker to OPEN only when the bumped
cumulative failure counter reaches `failureThreshold`; since any success
resets that counter to 0, one success followed by one failure leaves the
breaker in HALF_OPEN whenever `failureThreshold > 1`, while a failure with
the surviving pre-open counter (at least the threshold) does reopen it. -/
theorem circuitBreaker_half_open_failure_amended (cb : Scrape.CircuitBreaker)
    (now : Nat) (hst : cb.state = .HALF_OPEN) :
    (cb.execute now false).invoked = true
    ∧ (cb.execute now false).cb.lastFailureTime = some now
    ∧ (cb.execute now false).cb.state =
        (if cb.failures + 1 ≥ cb.failureThreshold then .OPEN else .HALF_OPEN) := by
  have hnotopen : ¬ (cb.state = Scrape.CBState.OPEN ∧
      ¬ (now - (cb.lastFailureTime.getD 0) > cb.resetTimeout)) := by
    rw [hst]
    simp
  rw [Scrape.CircuitBreaker.execute, if_neg hnotopen]
  rw [hst]
  simp only [if_neg (by simp : ¬ (Scrape.CBState.HALF_OPEN = Scrape.CBState.OPEN)),
    Bool.false_eq_true, if_false, Scrape.CircuitBreaker.onFailure]
  by_cases hth : cb.failures + 1 ≥ cb.failureThreshold
  · simp [hth, hst]
  · simp [hth, hst]

/-- Closed instance of the amended HALF_OPEN law: at the concrete HALF_OPEN
state reached in the counterexample trace (counter reset by the probe
success), the next failure keeps the state HALF_OPEN. -/
theorem circuitBreaker_half_open_failure_amended_witness :
    (((((Scrape.CircuitBreaker.mkNew 2 10 3).execute 0 false).cb.execute 1
        false).cb.execute 20 true).cb.execute 21 false).invoked = true
    ∧ ((((((Scrape.CircuitBreaker.mkNew 2 10 3).execute 0 false).cb.execute 1
        false).cb.execute 20 true).cb.execute 21 false).cb.lastFailureTime = some 21)
    ∧ ((((((Scrape.CircuitBreaker.mkNew 2 10 3).execute 0 false).cb.execute 1
        false).cb.execute 20 true).cb.execute 21 false).cb.state =
        (if ((((Scrape.CircuitBreaker.mkNew 2 10 3).execute 0 false).cb.execute 1
          false).cb.execute 20 true).cb.failures + 1 ≥
            ((((Scrape.CircuitBreaker.mkNew 2 10 3).execute 0 false).cb.execute 1
              false).cb.execute 20 true).cb.failureThreshold then .OPEN
         else .HALF_OPEN)) :=
  circuitBreaker_half_open_failure_amended
    ((((Scrape.CircuitBreaker.mkNew 2 10 3).execute 0 false).cb.execute 1
      false).cb.execute 20 true).cb 21 (by decide)

/-- Helper: on an operation that fails with a recoverable error at every
attempt, the retry loop with `k + 1` iterations left makes attempts
`attempt, ..., attempt + k`, waits `backoff * 2 ^ (i - 1)` after each
non-final attempt `i`, and ends with the last attempt's error. -/
theorem withRetryGo_all_recoverable {α : Type} (fn : Nat → Except Scrape.JsError α)
    (err : Nat → Scrape.JsError) (backoff : Nat)
    (hfail : ∀ a, fn a = .error (err a))
    (hrec : ∀ a, Scrape.ErrorHandler.isRecoverable (err a) = true) :
    ∀ (k attempt : Nat) (lastError : Option Scrape.JsError),
      Scrape.ErrorHandler.withRetryGo fn backoff (k + 1) attempt lastError =
        { result := .error (some (err (attempt + k))),
          attemptsMade := List.range' attempt (k + 1),
          delays := (List.range' attempt k).map (fun i => backoff * 2 ^ (i - 1)) } := by
  intro k
  induction k with
  | zero =>
    intro attempt lastError
    rw [Scrape.ErrorHandler.withRetryGo, hfail attempt]
    simp [List.range'_succ]
  | succ k ih =>
    intro attempt lastError
    rw [Scrape.ErrorHandler.withRetryGo, hfail attempt]
    have hcond : ¬ (Scrape.ErrorHandler.isRecoverable (err attempt) = false ∨ k + 1 = 0) := by
      rw [hrec attempt]
      simp
    simp only [if_neg hcond, ih (attempt + 1) (some (err attempt))]
    have hlast : attempt + 1 + k = attempt + (k + 1) := by omega
    rw [hlast]
    refine congrArg₂ (fun a d => Scrape.ErrorHandler.RetryTrace.mk
      (Except.error (some (err (attempt + (k + 1))))) a d) ?_ ?_
    · rw [List.range'_succ attempt (k + 1) 1]
    · rw [List.range'_succ attempt k 1, List.map_cons]

/-- C5: an operation failing with a recoverable error on every attempt is
invoked exactly `maxAttempts` times (attempts 1 through `maxAttempts`), with
a wait of `baseDelay * 2 ^ (attemptNumber - 1)` between consecutive attempts,
and the run terminates with the last attempt's error; `maxAttempts = 1`
performs no retry (no waits at all). -/
theorem withRetry_exhausts_with_backoff {α : Type} (fn : Nat → Except Scrape.JsError α)
    (err : Nat → Scrape.JsError) (maxRetries backoff : Nat)
    (hfail : ∀ a, fn a = .error (err a))
    (hrec : ∀ a, Scrape.ErrorHandler.isRecoverable (err a) = true)
    (hpos : 1 ≤ maxRetries) :
    Scrape.ErrorHandler.withRetry fn maxRetries backoff =
      { result := .error (some (err maxRetries)),
        attemptsMade := List.range' 1 maxRetries,
        delays := (List.range' 1 (maxRetries - 1)).map (fun i => backoff * 2 ^ (i - 1)) }
    ∧ (List.range' 1 maxRetries).length = maxRetries := by
  constructor
  · obtain ⟨n, rfl⟩ : ∃ n, maxRetries = n + 1 := ⟨maxRetries - 1, by omega⟩
    rw [Scrape.ErrorHandler.withRetry,
      withRetryGo_all_recoverable fn err backoff hfail hrec n 1 none,
      Nat.add_comm 1 n, Nat.add_sub_cancel]
  · simp

/-- Closed instance of the retry/backoff theorem: with `maxAttempts = 3` and
`baseDelay = 100`, a perpetually rate-limited operation is attempted at
1, 2, 3 with waits of 100 ms and 200 ms, finishing with the last error; with
`maxAttempts = 1` it is attempted once with no wait. -/
theorem withRetry_exhausts_with_backoff_witness :
    Scrape.ErrorHandler.withRetry Scrape.alwaysRateLimited 3 100 =
      { result := .error (some (.rateLimitError "rate limited" (some 30))),
        attemptsMade := [1, 2, 3], delays := [100, 200] }
    ∧ Scrape.ErrorHandler.withRetry Scrape.alwaysRateLimited 1 100 =
      { result := .error (some (.rateLimitError "rate limited" (some 30))),
        attemptsMade := [1], delays := [] } := by
  constructor
  · exact ((withRetry_exhausts_with_backoff Scrape.alwaysRateLimited
      (fun _ => .rateLimitError "rate limited" (some 30)) 3 100
      (fun _ => rfl) (fun _ => rfl) (by decide)).1).trans (by rfl)
  · exact ((withRetry_exhausts_with_backoff Scrape.alwaysRateLimited
      (fun _ => .rateLimitError "rate limited" (some 30)) 1 100
      (fun _ => rfl) (fun _ => rfl) (by decide)).1).trans (by rfl)

/-- C6 counterexample: an operation that always fails with a
`RateLimitError` whose retry-after hint is present (30 seconds), run with
`maxRetries = 2, backoff = 100`: the wait before the second attempt is the
exponential-backoff 100 ms, not the hinted duration (neither 30000 ms nor
30 of any unit) — `withRetry` never reads the hint. -/
theorem withRetry_hint_ignored_ce :
    (Scrape.ErrorHandler.withRetry Scrape.alwaysRateLimited 2 100).delays = [100]
    ∧ Scrape.waitForRateLimitReset (.rateLimitError "rate limited" (some 30)) = 30000
    ∧ (100 : Nat) ≠ 30000 ∧ (100 : Nat) ≠ 30 :=
  ⟨rfl, rfl, by decide, by decide⟩

/-- C6 amended: for an operation perpetually failing with a `RateLimitError`
carrying a retry-after hint, `withRetry` still waits the exponential backoff
`baseDelay * 2 ^ (attemptNumber - 1)` between attempts, ignoring the hint;
the hint is honored only by the separate recovery strategy
`ErrorRecovery.waitForRateLimitReset`, which waits `retryAfter` seconds
(falling back to 60 when the hint is absent or zero). -/
theorem withRetry_backoff_ignores_hint {α : Type} (fn : Nat → Except Scrape.JsError α)
    (msg : String) (ra maxRetries backoff : Nat)
    (hfail : ∀ a, fn a = .error (.rateLimitError msg (some ra)))
    (hpos : 1 ≤ maxRetries) :
    (Scrape.ErrorHandler.withRetry fn maxRetries backoff).delays =
      (List.range' 1 (maxRetries - 1)).map (fun i => backoff * 2 ^ (i - 1))
    ∧ Scrape.waitForRateLimitReset (.rateLimitError msg (some ra)) =
      (if ra = 0 then 60 else ra) * 1000 := by
  constructor
  · obtain ⟨n, rfl⟩ : ∃ n, maxRetries = n + 1 := ⟨maxRetries - 1, by omega⟩
    rw [Scrape.ErrorHandler.withRetry,
      withRetryGo_all_recoverable fn (fun _ => .rateLimitError msg (some ra))
        backoff hfail (fun _ => rfl) n 1 none,
      Nat.add_sub_cancel]
  · rw [Scrape.waitForRateLimitReset]

/-- Closed instance of the amended backoff law at the concrete rate-limited
operation: the single wait is 100 ms and the recovery strategy's wait is
30000 ms. -/
theorem withRetry_backoff_ignores_hint_witness :
    (Scrape.ErrorHandler.withRetry Scrape.alwaysRateLimited 2 100).delays = [100]
    ∧ Scrape.waitForRateLimitReset (.rateLimitError "rate limited" (some 30)) =
      (if (30 : Nat) = 0 then 60 else 30) * 1000 := by
  have h := withRetry_backoff_ignores_hint Scrape.alwaysRateLimited "rate limited"
    30 2 100 (fun _ => rfl) (by decide)
  exact ⟨h.1.trans (by rfl), h.2⟩

/-- Helper: a key that does not occur among an association list's keys has no
binding. -/
theorem lookup_none_of_not_mem_keys (l : List (String × Scrape.DomainData))
    (k : String) (h : k ∉ l.map Prod.fst) : l.lookup k = none := by
  induction l with
  | nil => rfl
  | cons hd tl ih =>
    obtain ⟨a, b⟩ := hd
    rw [List.map_cons, List.mem_cons] at h
    push_neg at h
    rw [List.lookup_cons, beq_false_of_ne h.1]
    exact ih h.2

/-- Helper: a successful lookup names an actual entry of the list. -/
theorem mem_of_lookup_some (l : List (String × Scrape.DomainData)) (k : String)
    (v : Scrape.DomainData) (h : l.lookup k = some v) : (k, v) ∈ l := by
  induction l with
  | nil => simp [List.lookup] at h
  | cons hd tl ih =>
    obtain ⟨a, b⟩ := hd
    by_cases hk : k = a
    · subst hk
      simp [List.lookup_cons] at h
      simp [h]
    · rw [List.lookup_cons, beq_false_of_ne hk] at h
      exact List.mem_cons_of_mem _ (ih h)

/-- Helper: with unique keys, filtering out the entry a lookup found leaves
no binding for its key. -/
theorem lookup_filter_none_of_pred_false (l : List (String × Scrape.DomainData))
    (k : String) (v : Scrape.DomainData) (f : String × Scrape.DomainData → Bool)
    (hnd : (l.map Prod.fst).Nodup) (hl : l.lookup k = some v) (hf : f (k, v) = false) :
    (l.filter f).lookup k = none := by
  induction l with
  | nil => simp [List.lookup] at hl
  | cons hd tl ih =>
    obtain ⟨a, b⟩ := hd
    rw [List.map_cons, List.nodup_cons] at hnd
    by_cases hk : k = a
    · subst hk
      have hb : b = v := by simpa [List.lookup_cons] using hl
      subst hb
      rw [List.filter_cons_of_neg (by simpa using hf)]
      apply lookup_none_of_not_mem_keys
      intro hmem
      apply hnd.1
      obtain ⟨p, hp, hpk⟩ := List.mem_map.mp hmem
      exact List.mem_map.mpr ⟨p, List.mem_of_mem_filter hp, hpk⟩
    · rw [List.lookup_cons, beq_false_of_ne hk] at hl
      by_cases hfa : f (a, b) = true
      · rw [List.filter_cons_of_pos hfa, List.lookup_cons, beq_false_of_ne hk]
        exact ih hnd.2 hl
      · rw [List.filter_cons_of_neg (by simpa using hfa)]
        exact ih hnd.2 hl

/-- Helper: deleting a key from an association list removes every binding of
that key. -/
theorem lookup_filter_neKey_self (l : List (String × Scrape.DomainData)) (k : String) :
    (l.filter (fun p => p.1 != k)).lookup k = none := by
  induction l with
  | nil => rfl
  | cons hd tl ih =>
    obtain ⟨a, b⟩ := hd
    by_cases hk : a = k
    · subst hk
      rw [List.filter_cons_of_neg (by simp)]
      exact ih
    · rw [List.filter_cons_of_pos (by simpa using hk), List.lookup_cons,
        beq_false_of_ne (fun hcon => hk hcon.symm)]
      exact ih

/-- Helper: deleting one key from an association list leaves every other
key's binding untouched. -/
theorem lookup_filter_neKey_other (l : List (String × Scrape.DomainData))
    (k k' : String) (hne : k' ≠ k) :
    (l.filter (fun p => p.1 != k)).lookup k' = l.lookup k' := by
  induction l with
  | nil => rfl
  | cons hd tl ih =>
    obtain ⟨a, b⟩ := hd
    by_cases hk : a = k
    · subst hk
      rw [List.filter_cons_of_neg (by simp), List.lookup_cons,
        beq_false_of_ne hne]
      exact ih
    · rw [List.filter_cons_of_pos (by simpa using hk)]
      by_cases hk' : k' = a
      · subst hk'
        simp [List.lookup_cons]
      · rw [List.lookup_cons, beq_false_of_ne hk', List.lookup_cons,
          beq_false_of_ne hk']
        exact ih

/-- Helper: a table with no expired entry is left unchanged by the cleanup
sweep, and the sweep reports no change. -/
theorem cleanup_of_clean (d : Scrape.LearningData) (now : Nat)
    (hclean : ∀ p ∈ d.domains, Scrape.isExpired now p = false) :
    Scrape.cleanupOldEntries d now = (d, false) := by
  rw [Scrape.cleanupOldEntries]
  have hfilter : d.domains.filter (fun p => ! Scrape.isExpired now p) = d.domains :=
    List.filter_eq_self.mpr (fun p hp => by simp [hclean p hp])
  have hany : d.domains.any (Scrape.isExpired now) = false := by
    rw [List.any_eq_false]
    intro p hp
    simp [hclean p hp]
  rw [hfilter, hany]

/-- Helper: a succeeding write replaces the file content. -/
theorem saveLearningData_ok (s : Scrape.StorageState) (d : Scrape.LearningData) :
    Scrape.saveLearningData s d true = .ok { file := some d } := rfl

/-- Helper: a failing write throws. -/
theorem saveLearningData_err (s : Scrape.StorageState) (d : Scrape.LearningData) :
    Scrape.saveLearningData s d false = .error "write failed" := rfl

/-- Helper: loading a file with no expired entry hands the parsed data back
and leaves the file untouched, for any write outcome. -/
theorem load_of_clean (s : Scrape.StorageState) (d : Scrape.LearningData)
    (now : Nat) (writeOk : Bool) (hfile : s.file = some d)
    (hclean : ∀ p ∈ d.domains, Scrape.isExpired now p = false) :
    Scrape.loadLearningData s now writeOk = (d, s) := by
  simp [Scrape.loadLearningData, hfile, cleanup_of_clean d now hclean]

/-- Helper: with a succeeding writer, every entry the load hands back is
unexpired (the cleanup sweep just removed the others). -/
theorem load_fst_clean (s : Scrape.StorageState) (now : Nat) :
    ∀ p ∈ (Scrape.loadLearningData s now true).1.domains,
      Scrape.isExpired now p = false := by
  intro p hp
  rcases s with ⟨f⟩
  cases f with
  | none => simp [Scrape.loadLearningData, Scrape.emptyLearning] at hp
  | some d =>
    simp only [Scrape.loadLearningData] at hp
    by_cases hc : (Scrape.cleanupOldEntries d now).2 = true
    · rw [if_pos hc, saveLearningData_ok] at hp
      simp only [Scrape.cleanupOldEntries] at hp
      have := (List.mem_filter.mp hp).2
      simpa using this
    · rw [if_neg hc] at hp
      simp only [Scrape.cleanupOldEntries] at hp
      have := (List.mem_filter.mp hp).2
      simpa using this

/-- Helper: with a failing writer the load never changes the file. -/
theorem load_snd_of_write_fail (s : Scrape.StorageState) (now : Nat) :
    (Scrape.loadLearningData s now false).2 = s := by
  rcases s with ⟨f⟩
  cases f with
  | none => rfl
  | some d =>
    simp only [Scrape.loadLearningData]
    by_cases hc : (Scrape.cleanupOldEntries d now).2 = true
    · rw [if_pos hc, saveLearningData_err]
    · rw [if_neg hc]

/-- Helper: after a JavaScript-style key assignment the assigned key maps to
the new value. -/
theorem lookup_setDomain_self (ds : List (String × Scrape.DomainData))
    (h : String) (dd : Scrape.DomainData) :
    (Scrape.setDomain ds h dd).lookup h = some dd := by
  rw [Scrape.setDomain]
  by_cases hin : (ds.lookup h).isSome
  · rw [if_pos hin]
    induction ds with
    | nil => simp [List.lookup] at hin
    | cons hd tl ih =>
      obtain ⟨a, b⟩ := hd
      by_cases hk : a = h
      · subst hk
        simp [List.lookup_cons]
      · rw [List.map_cons]
        simp only [hk, if_false]
        rw [List.lookup_cons, beq_false_of_ne (fun hcon => hk hcon.symm)]
        rw [List.lookup_cons, beq_false_of_ne (fun hcon => hk hcon.symm)] at hin
        exact ih hin
  · rw [if_neg hin]
    induction ds with
    | nil => simp [List.lookup_cons]
    | cons hd tl ih =>
      obtain ⟨a, b⟩ := hd
      rw [List.cons_append]
      rw [List.lookup_cons] at hin ⊢
      by_cases hk : h = a
      · subst hk
        simp at hin
      · rw [beq_false_of_ne hk] at hin ⊢
        exact ih hin

/-- Helper: every entry after a key assignment is either the new binding or
one of the original entries. -/
theorem mem_setDomain (ds : List (String × Scrape.DomainData)) (h : String)
    (dd : Scrape.DomainData) (p : String × Scrape.DomainData)
    (hp : p ∈ Scrape.setDomain ds h dd) : p = (h, dd) ∨ p ∈ ds := by
  rw [Scrape.setDomain] at hp
  by_cases hin : (ds.lookup h).isSome
  · rw [if_pos hin] at hp
    obtain ⟨q, hq, hqp⟩ := List.mem_map.mp hp
    by_cases hqh : q.1 = h
    · left
      rw [if_pos hqh] at hqp
      exact hqp.symm
    · right
      rw [if_neg hqh] at hqp
      exact hqp ▸ hq
  · rw [if_neg hin] at hp
    rcases List.mem_append.mp hp with hmem | hmem
    · exact Or.inr hmem
    · exact Or.inl (by simpa using hmem)

/-- Helper: `recordSuccessData` binds the hostname to a record stamped with
the current time and the stored strategy. -/
theorem recordSuccessData_lookup (d : Scrape.LearningData)
    (hostname contentType : String) (ed : Scrape.ExtractionData)
    (strategy : String) (now : Nat) :
    ∃ dd, (Scrape.recordSuccessData d hostname contentType ed strategy now).domains.lookup
        hostname = some dd
      ∧ dd.lastSuccess = some now ∧ dd.strategy = strategy := by
  rcases ed with ⟨plat, sel, ets, tim⟩
  cases sel <;> cases ets <;> cases tim <;>
    exact ⟨_, lookup_setDomain_self _ _ _, rfl, rfl⟩

/-- Helper: the table `recordSuccessData` produces has no expired entry when
the input table had none — the upserted record is fresh by construction. -/
theorem recordSuccessData_clean (d : Scrape.LearningData)
    (hostname contentType : String) (ed : Scrape.ExtractionData)
    (strategy : String) (now : Nat)
    (hclean : ∀ p ∈ d.domains, Scrape.isExpired now p = false) :
    ∀ p ∈ (Scrape.recordSuccessData d hostname contentType ed strategy now).domains,
      Scrape.isExpired now p = false := by
  intro p hp
  rcases ed with ⟨plat, sel, ets, tim⟩
  cases sel <;> cases ets <;> cases tim <;>
    rcases mem_setDomain _ _ _ _ hp with hnew | hold <;>
      first
        | (subst hnew; simp [Scrape.isExpired])
        | exact hclean p hold

/-- Helper: with a succeeding writer, `recordSuccess` persists exactly the
updated table. -/
theorem recordSuccess_true_file (s : Scrape.StorageState)
    (hostname contentType : String) (ed : Scrape.ExtractionData)
    (strategy : String) (now : Nat) :
    Scrape.recordSuccess s hostname contentType ed strategy now true =
      { file := some (Scrape.recordSuccessData
          (Scrape.loadLearningData s now true).1 hostname contentType ed strategy now) } := by
  rw [Scrape.recordSuccess, saveLearningData_ok]

/-- Helper: a record whose last success is the current instant has derived
confidence 1. -/
theorem calculateConfidence_fresh (now : Nat) (dd : Scrape.DomainData)
    (hls : dd.lastSuccess = some now) : Scrape.calculateConfidence now dd = 1 := by
  simp only [Scrape.calculateConfidence, hls]
  rw [if_pos]
  rw [Nat.sub_self]
  norm_num

/-- Helper: a lookup on a clean stored table returns the bound record with
its derived confidence, provided the record is not stale. -/
theorem getLearnedPatterns_hit (s : Scrape.StorageState) (d : Scrape.LearningData)
    (hostname ct : String) (now : Nat)
    (hfile : s.file = some d)
    (hclean : ∀ p ∈ d.domains, Scrape.isExpired now p = false)
    (dd : Scrape.DomainData) (t : Nat)
    (hdd : d.domains.lookup hostname = some dd)
    (hls : dd.lastSuccess = some t)
    (hfresh : ¬ (now - t > Scrape.cacheMaxAge)) :
    (Scrape.getLearnedPatterns s hostname ct now true).1 =
      some { selectors := dd.workingSelectors.lookup ct, platform := dd.platform,
             strategy := dd.strategy, extractors := dd.successfulExtractors,
             timing := dd.optimalTiming, lastSuccess := dd.lastSuccess,
             confidence := Scrape.calculateConfidence now dd } := by
  simp only [Scrape.getLearnedPatterns, load_of_clean s d now true hfile hclean, hdd, hls]
  rw [if_neg (by simpa using hfresh)]

/-- C8: recording a success for any domain, category, strategy and timing
and immediately looking the domain up returns a present record whose
`strategy` is the one just stored and whose derived confidence is 1.0. -/
theorem recordSuccess_lookup_roundtrip (s : Scrape.StorageState)
    (hostname contentType : String) (ed : Scrape.ExtractionData)
    (strategy : String) (now : Nat) :
    ∃ lp, (Scrape.getLearnedPatterns
        (Scrape.recordSuccess s hostname contentType ed strategy now true)
        hostname contentType now true).1 = some lp
      ∧ lp.strategy = strategy ∧ lp.confidence = 1 := by
  obtain ⟨dd, hdd, hls, hstrat⟩ :=
    recordSuccessData_lookup (Scrape.loadLearningData s now true).1
      hostname contentType ed strategy now
  have hclean1 : ∀ p ∈ (Scrape.recordSuccessData (Scrape.loadLearningData s now true).1
      hostname contentType ed strategy now).domains, Scrape.isExpired now p = false :=
    recordSuccessData_clean _ hostname contentType ed strategy now (load_fst_clean s now)
  have hhit := getLearnedPatterns_hit
    (Scrape.recordSuccess s hostname contentType ed strategy now true)
    (Scrape.recordSuccessData (Scrape.loadLearningData s now true).1
      hostname contentType ed strategy now)
    hostname contentType now
    (by rw [recordSuccess_true_file])
    hclean1 dd now hdd hls
    (by simp [Nat.sub_self])
  refine ⟨_, hhit, hstrat, calculateConfidence_fresh now dd hls⟩

/-- C7: the derived confidence of a record with a recorded last success is
exactly the step function of the time since that success — 1.0 up to 7 days,
0.8 up to 30, 0.6 up to 90, 0.4 beyond — and a record older than the 6-month
maximum age is purged by the load sweep and reported absent by lookup. -/
theorem confidence_step_function_and_purge (now t : Nat) (dd : Scrape.DomainData)
    (hls : dd.lastSuccess = some t) :
    (Scrape.calculateConfidence now dd =
        if now - t ≤ 7 * Scrape.msPerDay then 1
        else if now - t ≤ 30 * Scrape.msPerDay then 8 / 10
        else if now - t ≤ 90 * Scrape.msPerDay then 6 / 10
        else 4 / 10)
    ∧ (∀ (s : Scrape.StorageState) (d : Scrape.LearningData) (hostname ct : String),
        s.file = some d → (d.domains.map Prod.fst).Nodup →
        d.domains.lookup hostname = some dd →
        now - t > Scrape.cacheMaxAge →
        (Scrape.getLearnedPatterns s hostname ct now true).1 = none
        ∧ (Scrape.getLearnedPatterns s hostname ct now true).2.file.map
            (fun d2 => d2.domains.lookup hostname) = some none) := by
  constructor
  · have key : ∀ (c : ℕ),
        (((now - t : ℕ) : ℚ) / ((Scrape.msPerDay : ℕ) : ℚ) ≤ (c : ℚ)) ↔
          now - t ≤ c * Scrape.msPerDay := by
      intro c
      rw [div_le_iff₀ (by norm_num [Scrape.msPerDay])]
      constructor
      · intro hcast
        exact_mod_cast hcast
      · intro hnat
        exact_mod_cast hnat
    have h7 := key 7
    have h30 := key 30
    have h90 := key 90
    rw [Nat.cast_ofNat] at h7 h30 h90
    simp only [Scrape.calculateConfidence, hls, h7, h30, h90]
  · intro s d hostname ct hfile hnd hdd hstale
    have hexp : Scrape.isExpired now (hostname, dd) = true := by
      simp [Scrape.isExpired, hls, hstale]
    have hmem := mem_of_lookup_some d.domains hostname dd hdd
    have hany : d.domains.any (Scrape.isExpired now) = true :=
      List.any_eq_true.mpr ⟨_, hmem, hexp⟩
    have hload : Scrape.loadLearningData s now true =
        ((Scrape.cleanupOldEntries d now).1,
          { file := some (Scrape.cleanupOldEntries d now).1 }) := by
      simp only [Scrape.loadLearningData, hfile]
      have hc2 : (Scrape.cleanupOldEntries d now).2 = true := by
        simp only [Scrape.cleanupOldEntries]
        exact hany
      rw [if_pos hc2, saveLearningData_ok]
    have hlookup1 : (Scrape.cleanupOldEntries d now).1.domains.lookup hostname = none := by
      simp only [Scrape.cleanupOldEntries]
      exact lookup_filter_none_of_pred_false d.domains hostname dd _ hnd hdd
        (by simp [hexp])
    constructor
    · simp only [Scrape.getLearnedPatterns, hload, hlookup1]
    · simp only [Scrape.getLearnedPatterns, hload, hlookup1]
      simp [hlookup1]

/-- Closed instance of the confidence tiers and the purge: with last success
at time 0, confidence is 1.0 at 5 days, 0.8 at 20 days, 0.6 at 60 days, 0.4
at 120 days, and at 200 days the `example.com` record is reported absent. -/
theorem confidence_step_function_and_purge_witness :
    Scrape.calculateConfidence (5 * Scrape.msPerDay) Scrape.ceDomainData = 1
    ∧ Scrape.calculateConfidence (20 * Scrape.msPerDay) Scrape.ceDomainData = 8 / 10
    ∧ Scrape.calculateConfidence (60 * Scrape.msPerDay) Scrape.ceDomainData = 6 / 10
    ∧ Scrape.calculateConfidence (120 * Scrape.msPerDay) Scrape.ceDomainData = 4 / 10
    ∧ (Scrape.getLearnedPatterns Scrape.ceStorage "example.com" "articles"
        (200 * Scrape.msPerDay) true).1 = none := by
  refine ⟨?_, ?_, ?_, ?_, ?_⟩
  · rw [(confidence_step_function_and_purge (5 * Scrape.msPerDay) 0
      Scrape.ceDomainData rfl).1]
    norm_num [Scrape.msPerDay]
  · rw [(confidence_step_function_and_purge (20 * Scrape.msPerDay) 0
      Scrape.ceDomainData rfl).1]
    norm_num [Scrape.msPerDay]
  · rw [(confidence_step_function_and_purge (60 * Scrape.msPerDay) 0
      Scrape.ceDomainData rfl).1]
    norm_num [Scrape.msPerDay]
  · rw [(confidence_step_function_and_purge (120 * Scrape.msPerDay) 0
      Scrape.ceDomainData rfl).1]
    norm_num [Scrape.msPerDay]
  · exact ((confidence_step_function_and_purge (200 * Scrape.msPerDay) 0
      Scrape.ceDomainData rfl).2 Scrape.ceStorage
      { domains := [("example.com", Scrape.ceDomainData)], version := "1.0.0" }
      "example.com" "articles" rfl (by decide) (by decide)
      (by norm_num [Scrape.msPerDay, Scrape.cacheMaxAge])).1

/-- C9 counterexample: the stored `example.com` record holds selectors for
both `articles` and `videos`; before invalidation a lookup of the `videos`
category finds its selector, but after `recordFailure` for the `articles`
category the `videos` lookup comes back empty — the deletion was not limited
to the matching (domain, category) record. -/
theorem invalidate_other_category_ce :
    ((Scrape.getLearnedPatterns Scrape.ceStorage "example.com" "videos" 0 true).1.map
        (fun lp => lp.selectors)) = some (some "video.main")
    ∧ (Scrape.getLearnedPatterns
        (Scrape.recordFailure Scrape.ceStorage "example.com" "articles"
          "bad selectors" 0 true)
        "example.com" "videos" 0 true).1 = none := by
  exact ⟨rfl, rfl⟩

/-- C9 amended: `recordFailure(domain, category, reason)` (the invalidate
path) deletes the *entire* domain entry — the category argument does not
narrow the deletion, so the records of every category of that domain are
removed together — and persists the cache; entries of other domains keep
their bindings unchanged. -/
theorem invalidate_deletes_whole_domain (s : Scrape.StorageState)
    (d : Scrape.LearningData) (hostname ct reason : String) (now : Nat)
    (hfile : s.file = some d)
    (hclean : ∀ p ∈ d.domains, Scrape.isExpired now p = false)
    (hsome : (d.domains.lookup hostname).isSome = true) :
    (Scrape.recordFailure s hostname ct reason now true).file =
      some { domains := d.domains.filter (fun p => p.1 != hostname),
             version := d.version }
    ∧ (d.domains.filter (fun p => p.1 != hostname)).lookup hostname = none
    ∧ (∀ h2, h2 ≠ hostname →
        (d.domains.filter (fun p => p.1 != hostname)).lookup h2 =
          d.domains.lookup h2) := by
  refine ⟨?_, lookup_filter_neKey_self d.domains hostname,
    fun h2 hne => lookup_filter_neKey_other d.domains hostname h2 hne⟩
  simp only [Scrape.recordFailure, Scrape.bustCache,
    load_of_clean s d now true hfile hclean]
  rw [if_pos hsome, saveLearningData_ok]

/-- Closed instance of the amended invalidation law on the concrete store:
busting `example.com` empties its table entry and leaves the (absent)
binding of `other.com` as it was. -/
theorem invalidate_deletes_whole_domain_witness :
    (Scrape.recordFailure Scrape.ceStorage "example.com" "articles"
        "bad selectors" 0 true).file = some { domains := [], version := "1.0.0" }
    ∧ ([("example.com", Scrape.ceDomainData)].filter
        (fun p => p.1 != "example.com")).lookup "other.com" =
      [("example.com", Scrape.ceDomainData)].lookup "other.com" := by
  have h := invalidate_deletes_whole_domain Scrape.ceStorage
    { domains := [("example.com", Scrape.ceDomainData)], version := "1.0.0" }
    "example.com" "articles" "bad selectors" 0 rfl (by decide) (by decide)
  exact ⟨h.1.trans (by rfl), h.2.2 "other.com" (by decide)⟩

/-- C10: the pattern cache never surfaces a storage failure: an unreadable or
invalid file loads as the empty structure and looks up as a miss, and a
failing write during `recordSuccess` or during a cache bust is swallowed,
returning normally with the stored file untouched. -/
theorem storage_failures_swallowed :
    (∀ (s : Scrape.StorageState) (now : Nat) (writeOk : Bool), s.file = none →
        Scrape.loadLearningData s now writeOk = (Scrape.emptyLearning, s))
    ∧ (∀ (s : Scrape.StorageState) (hostname ct : String) (now : Nat) (writeOk : Bool),
        s.file = none →
        (Scrape.getLearnedPatterns s hostname ct now writeOk).1 = none)
    ∧ (∀ (s : Scrape.StorageState) (hostname ct : String) (ed : Scrape.ExtractionData)
        (strategy : String) (now : Nat),
        Scrape.recordSuccess s hostname ct ed strategy now false = s)
    ∧ (∀ (s : Scrape.StorageState) (hostname reason : String) (now : Nat),
        Scrape.bustCache s hostname reason now false = s) := by
  refine ⟨?_, ?_, ?_, ?_⟩
  · intro s now writeOk hfile
    rcases s with ⟨f⟩
    have hf : f = none := hfile
    subst hf
    rfl
  · intro s hostname ct now writeOk hfile
    rcases s with ⟨f⟩
    have hf : f = none := hfile
    subst hf
    rfl
  · intro s hostname ct ed strategy now
    rw [Scrape.recordSuccess, saveLearningData_err]
    exact load_snd_of_write_fail s now
  · intro s hostname reason now
    rw [Scrape.bustCache]
    by_cases hin :
        ((Scrape.loadLearningData s now false).1.domains.lookup hostname).isSome = true
    · rw [if_pos hin]
      exact load_snd_of_write_fail s now
    · rw [if_neg hin]
      exact load_snd_of_write_fail s now

/-- Closed instance of the swallowed-failure law: a missing file loads empty
and misses, and failing writes leave the concrete store untouched. -/
theorem storage_failures_swallowed_witness :
    Scrape.loadLearningData { file := none } 0 true =
      (Scrape.emptyLearning, { file := none })
    ∧ (Scrape.getLearnedPatterns { file := none } "example.com" "articles" 0 true).1 = none
    ∧ Scrape.recordSuccess Scrape.ceStorage "example.com" "articles"
        { platform := none, selectors := none, extractorTypes := none, timing := none }
        "cached-selectors" 0 false = Scrape.ceStorage
    ∧ Scrape.bustCache Scrape.ceStorage "example.com" "stale" 0 false = Scrape.ceStorage := by
  refine ⟨storage_failures_swallowed.1 { file := none } 0 true rfl,
    storage_failures_swallowed.2.1 { file := none } "example.com" "articles" 0 true rfl,
    storage_failures_swallowed.2.2.1 Scrape.ceStorage "example.com" "articles"
      { platform := none, selectors := none, extractorTypes := none, timing := none }
      "cached-selectors" 0,
    storage_failures_swallowed.2.2.2 Scrape.ceStorage "example.com" "stale" 0⟩

end Scrape
